import Mathlib

/-!
Shallow embedding of `deploy/microshift-bootc/config-svc/app.py`
(Jumpstarter Configuration Web UI) and verification of its specification.

Conventions:
* Python strings are modelled by Lean `String` / `List Char`; the embedding
  models the ASCII fragment of Python's whitespace / digit character classes
  (the data handled by the service is ASCII).
* External effects (subprocess invocations, `socket.gethostname`, the
  kubeconfig file) are modelled by an explicit environment `SysEnv` whose
  fields give each external command's outcome, and handlers additionally
  return the trace of external commands they invoke.
* Fallible Python code (exceptions caught and turned into `None` / error
  results in the source) is modelled with `Option`.
-/

set_option maxHeartbeats 1600000

namespace ConfigSvc

/-! ## Python string primitives -/

/-- ASCII fragment of Python's whitespace class (`str.strip`, `str.split`,
regex `\s`): space, tab, newline, carriage return, vertical tab, form feed. -/
def isPyWs (c : Char) : Bool :=
  c = ' ' || c = '\t' || c = '\n' || c = '\r' || c = '\x0b' || c = '\x0c'

/-- Python `str.strip()` on a character list. -/
def pyStripL (l : List Char) : List Char :=
  ((l.dropWhile isPyWs).reverse.dropWhile isPyWs).reverse

/-- Python `str.strip()`. -/
def pyStrip (s : String) : String := ⟨pyStripL s.data⟩

/-- Auxiliary for `splitOnC`: `acc` is the current chunk, reversed. -/
def splitOnCAux (sep : Char) : List Char → List Char → List (List Char)
  | [], acc => [acc.reverse]
  | c :: cs, acc =>
    if c = sep then acc.reverse :: splitOnCAux sep cs []
    else splitOnCAux sep cs (c :: acc)

/-- Python `str.split(sep)` for a single-character separator: keeps empty
chunks, `"".split(sep) == ['']`. -/
def splitOnC (sep : Char) (l : List Char) : List (List Char) :=
  splitOnCAux sep l []

/-- Auxiliary for `pyWords`: `acc` is the current word, reversed. -/
def pyWordsAux : List Char → List Char → List (List Char)
  | [], acc => if acc = [] then [] else [acc.reverse]
  | c :: cs, acc =>
    if isPyWs c then
      (if acc = [] then pyWordsAux cs [] else acc.reverse :: pyWordsAux cs [])
    else pyWordsAux cs (c :: acc)

/-- Python `str.split()` with no argument: splits on whitespace runs and
drops empty words. -/
def pyWords (l : List Char) : List (List Char) :=
  pyWordsAux l []

/-- Python `str.startswith(pre)` on character lists. -/
def startsWithL (pre l : List Char) : Bool :=
  match pre, l with
  | [], _ => true
  | _ :: _, [] => false
  | p :: ps, c :: cs => p = c && startsWithL ps cs

/-- The character class `[^\n]` of pattern 2. -/
def notNl (c : Char) : Bool := !(decide (c = '\n'))

/-! ## Restricted JSON-like value model (§3 of the spec)

The CR builder only produces strings, ordered maps and (per the spec's value
model) lists; `yaml_value`'s final `str(value)` branch is represented by the
`int` scalar.  Maps and lists are mutual inductives (rather than nested
`List`s) so that all recursions are structural and kernel-reducible. -/

inductive Scalar where
  | null
  | bool (b : Bool)
  | str (s : String)
  | int (n : Int)
deriving DecidableEq

mutual
inductive Json where
  | scalar (v : Scalar)
  | dict (entries : JsonEntries)
  | list (items : JsonList)

inductive JsonEntries where
  | nil
  | cons (key : String) (val : Json) (rest : JsonEntries)

inductive JsonList where
  | nil
  | cons (val : Json) (rest : JsonList)
end

/-! ## YAML emitter (`yaml_value`, `json_to_yaml`) -/

/-- The test `':' in value or '#' in value or value.startswith('-')` from
`yaml_value`. -/
def needsQuote (s : String) : Bool :=
  s.data.contains ':' || s.data.contains '#' ||
    (match s.data with
     | c :: _ => c = '-'
     | [] => false)

/-- `yaml_value`: format a scalar for YAML output. -/
def yaml_value : Scalar → String
  | .null => "null"
  | .bool b => if b then "true" else "false"
  | .str s => if needsQuote s then "\"" ++ s ++ "\"" else s
  | .int n => toString n

/-- Python `'\n'.join(lines)`. -/
def joinNl : List String → String
  | [] => ""
  | [x] => x
  | x :: y :: rest => x ++ "\n" ++ joinNl (y :: rest)

/-- Python `'  ' * indent`. -/
def indentStr (indent : Nat) : String :=
  String.join (List.replicate indent "  ")

mutual
/-- `json_to_yaml`: convert a JSON object to YAML text.  A bare scalar
produces no lines (the Python function has no branch for it and returns
`''.join([])`). -/
def json_to_yaml : Json → Nat → String
  | .scalar _, _ => joinNl []
  | .dict kvs, indent => joinNl (dictLines kvs indent)
  | .list xs, indent => joinNl (listLines xs indent)

/-- Lines contributed by the entries of a dict at the given indent. -/
def dictLines : JsonEntries → Nat → List String
  | .nil, _ => []
  | .cons k v rest, indent =>
    (match v with
     | .scalar s => [indentStr indent ++ k ++ ": " ++ yaml_value s]
     | .dict _ => [indentStr indent ++ k ++ ":", json_to_yaml v (indent + 1)]
     | .list _ => [indentStr indent ++ k ++ ":", json_to_yaml v (indent + 1)]) ++
    dictLines rest indent

/-- Lines contributed by the elements of a list at the given indent. -/
def listLines : JsonList → Nat → List String
  | .nil, _ => []
  | .cons v rest, indent =>
    (match v with
     | .scalar s => [indentStr indent ++ "- " ++ yaml_value s]
     | .dict _ => [indentStr indent ++ "-", json_to_yaml v (indent + 1)]
     | .list _ => [indentStr indent ++ "-", json_to_yaml v (indent + 1)]) ++
    listLines rest indent
end

/-- The fixed-shape Jumpstarter CR document built by `apply_jumpstarter_cr`. -/
def crDoc (base_domain image : String) : Json :=
  .dict (.cons "apiVersion" (.scalar (.str "jumpstarter.dev/v1alpha1"))
    (.cons "kind" (.scalar (.str "Jumpstarter"))
      (.cons "metadata"
        (.dict (.cons "name" (.scalar (.str "jumpstarter"))
          (.cons "namespace" (.scalar (.str "default")) .nil)))
        (.cons "spec"
          (.dict (.cons "baseDomain" (.scalar (.str base_domain))
            (.cons "image" (.scalar (.str image)) .nil)))
          .nil))))

/-! ## Messages, commands, pages, environments -/

inductive MsgType where
  | success
  | error
deriving DecidableEq

/-- A `{'type': ..., 'text': ...}` entry of the `messages` template list. -/
structure Msg where
  type : MsgType
  text : String
deriving DecidableEq

/-- One external command invocation (`subprocess` call), with the data the
source passes to it. -/
inductive Cmd where
  | ipRoute
  | ipAddr (dev : String)
  | chpasswd (stdin : String)
  | hostnamectl (name : String)
  | kubectl (yaml : String)
deriving DecidableEq

/-- The three configuration adapters; address discovery (`ip ...`) is not an
adapter. -/
def isAdapter : Cmd → Bool
  | .chpasswd _ => true
  | .hostnamectl _ => true
  | .kubectl _ => true
  | _ => false

/-- The data `render_template_string(HTML_TEMPLATE, ...)` receives. -/
structure Page where
  messages : List Msg
  current_hostname : String
  suggested_hostname : String
deriving DecidableEq

/-- Responses of the kubeconfig download route. -/
inductive DownloadResponse where
  | notFound
  | file (content : String)
deriving DecidableEq

/-- Outcomes of the external world: each field models one external
dependency's behaviour.  `none` models a failing command (nonzero exit with
`check=True`, or an exception), `some out` a successful one with stdout
`out`. -/
structure SysEnv where
  gethostname : Option String
  routeOut : Option String
  addrOut : String → Option String
  chpasswdResult : String → Bool × String
  hostnameResult : String → Bool × String
  kubectlResult : String → Bool × String
  kubeconfigFile : Option String

/-! ## System command adapters -/

/-- `get_current_hostname`: `socket.gethostname()`, `"unknown"` on error. -/
def get_current_hostname (env : SysEnv) : String :=
  match env.gethostname with
  | some h => h
  | none => "unknown"

/-- `set_root_password`: pipes `root:<password>\n` to `chpasswd` and reports
`(success, message)`. -/
def set_root_password (env : SysEnv) (password : String) : (Bool × String) × Cmd :=
  (env.chpasswdResult password, .chpasswd ("root:" ++ password ++ "\n"))

/-- `set_hostname`: runs `hostnamectl set-hostname <hostname>`. -/
def set_hostname (env : SysEnv) (hostname : String) : (Bool × String) × Cmd :=
  (env.hostnameResult hostname, .hostnamectl hostname)

/-- `apply_jumpstarter_cr`: serializes the CR with `json_to_yaml` and runs
`kubectl apply -f` on it. -/
def apply_jumpstarter_cr (env : SysEnv) (base_domain image : String) :
    (Bool × String) × Cmd :=
  (env.kubectlResult (json_to_yaml (crDoc base_domain image) 0),
   .kubectl (json_to_yaml (crDoc base_domain image) 0))

/-- Scan the `ip -4 addr show <dev>` output lines for the first stripped line
starting with `inet `; take its second whitespace-token, drop everything from
the first `/`, and substitute dots with hyphens.  A missing second token
(`IndexError` in the source) is caught by the enclosing handler and becomes
`None`. -/
def findInetIp : List (List Char) → Option String
  | [] => none
  | l :: rest =>
    let s := pyStripL l
    if startsWithL "inet ".data s then
      match (pyWords s)[1]? with
      | some tok =>
        some ⟨(tok.takeWhile (fun c => c ≠ '/')).map
          (fun c => if c = '.' then '-' else c)⟩
      | none => none
    else findInetIp rest

/-- `get_default_route_ip`: runs `ip route show default`, finds the token
after `dev`, runs `ip -4 addr show <dev>`, and extracts the hyphenated IPv4
address.  Returns the result together with the trace of commands invoked. -/
def get_default_route_ip (env : SysEnv) : Option String × List Cmd :=
  match env.routeOut with
  | none => (none, [.ipRoute])
  | some out =>
    match splitOnC '\n' (pyStripL out.data) with
    | [] => (none, [.ipRoute])
    | line0 :: _ =>
      let parts := pyWords line0
      if parts.length < 5 then (none, [.ipRoute])
      else
        match parts.findIdx? (fun w => w = "dev".data) with
        | none => (none, [.ipRoute])
        | some dev_idx =>
          if parts.length ≤ dev_idx + 1 then (none, [.ipRoute])
          else
            let dev_name : String := ⟨parts.getD (dev_idx + 1) []⟩
            match env.addrOut dev_name with
            | none => (none, [.ipRoute, .ipAddr dev_name])
            | some out2 =>
              (findInetIp (splitOnC '\n' out2.data), [.ipRoute, .ipAddr dev_name])

/-- `f"jumpstarter.{default_ip}.nip.io" if default_ip else
"jumpstarter.local"` — Python truthiness also treats `""` as absent. -/
def suggestion : Option String → String
  | some ip => if ip = "" then "jumpstarter.local" else "jumpstarter." ++ ip ++ ".nip.io"
  | none => "jumpstarter.local"

/-! ## HTTP handlers -/

/-- `GET /`: render the page with no messages, the current hostname and the
suggested domain; also returns the external commands invoked. -/
def index (env : SysEnv) : Page × List Cmd :=
  ({ messages := []
     current_hostname := get_current_hostname env
     suggested_hostname := suggestion (get_default_route_ip env).1 },
   (get_default_route_ip env).2)

/-- The submitted form of `POST /configure-jumpstarter`; each field is the
result of `request.form.get(name, '')` (missing field ↦ `""`). -/
structure Form where
  baseDomain : String
  image : String
  rootPassword : String

/-- `POST /configure-jumpstarter`: validation in fixed order, then the three
adapters in strict sequence, then the message-assembly policy of the source
(including the redundant `elif`/`else` pair).  Returns the rendered page and
the trace of external commands. -/
def configure_jumpstarter (env : SysEnv) (form : Form) : Page × List Cmd :=
  let base_domain := pyStrip form.baseDomain
  let image := pyStrip form.image
  let root_password := form.rootPassword
  let current_hostname := get_current_hostname env
  let default_ip := (get_default_route_ip env).1
  let discCmds := (get_default_route_ip env).2
  let suggested_hostname := suggestion default_ip
  if base_domain = "" then
    ({ messages := [⟨.error, "Base domain is required"⟩]
       current_hostname, suggested_hostname }, discCmds)
  else if image = "" then
    ({ messages := [⟨.error, "Controller image is required"⟩]
       current_hostname, suggested_hostname }, discCmds)
  else if root_password = "" ∨ root_password.length < 8 then
    ({ messages := [⟨.error, "Root password is required (minimum 8 characters)"⟩]
       current_hostname, suggested_hostname }, discCmds)
  else
    let pwd := set_root_password env root_password
    let msgs1 : List Msg :=
      if pwd.1.1 then []
      else [⟨.error, "Failed to set root password: " ++ pwd.1.2⟩]
    let host := set_hostname env base_domain
    let msgs2 : List Msg := msgs1 ++
      (if host.1.1 then []
       else [⟨.error, "Failed to update hostname: " ++ host.1.2⟩])
    let current_hostname2 := if host.1.1 then base_domain else current_hostname
    let cr := apply_jumpstarter_cr env base_domain image
    let msgs3 : List Msg := msgs2 ++
      (if pwd.1.1 && host.1.1 && cr.1.1 then
        [⟨.success, "Configuration applied successfully! Hostname: " ++
          base_domain ++ ", Image: " ++ image⟩]
      else if cr.1.1 || host.1.1 then
        (if cr.1.1 then []
         else [⟨.error, "Failed to apply Jumpstarter CR: " ++ cr.1.2⟩])
      else
        (if cr.1.1 then []
         else [⟨.error, "Failed to apply Jumpstarter CR: " ++ cr.1.2⟩]))
    ({ messages := msgs3
       current_hostname := current_hostname2, suggested_hostname },
     discCmds ++ [pwd.2, host.2, cr.2])

/-! ## Authentication (`check_auth`, `requires_auth`) -/

inductive AuthMech where
  | pam
  | su
deriving DecidableEq

/-- External authentication behaviour: whether the `pam` module imports, what
`pam.authenticate` returns, and `su`'s return code (`none` = exception). -/
structure AuthEnv where
  pamAvailable : Bool
  pam : String → String → Bool
  su : String → String → Option Int

/-- `check_auth`: non-root usernames are rejected immediately; otherwise PAM
is tried, falling back to `su` when the `pam` import fails.  Also returns the
list of authentication mechanisms attempted. -/
def check_auth (env : AuthEnv) (username password : String) :
    Bool × List AuthMech :=
  if username ≠ "root" then (false, [])
  else if env.pamAvailable then (env.pam username password, [.pam])
  else
    match env.su username password with
    | some code => (decide (code = 0), [.su])
    | none => (false, [.su])

/-- A handler response guarded by `requires_auth`. -/
inductive AuthedResponse (α : Type) where
  | unauthorized
  | ok (val : α)
deriving DecidableEq

/-- `requires_auth` decorator: missing or failing credentials short-circuit
to the 401 `authenticate()` response. -/
def requires_auth (env : AuthEnv) (cred : Option (String × String))
    (handler : α) : AuthedResponse α :=
  match cred with
  | none => .unauthorized
  | some (u, p) => if (check_auth env u p).1 then .ok handler else .unauthorized

/-! ## Kubeconfig rewriter (`download_kubeconfig`)

The handler applies two `re.sub` rewrites to the kubeconfig text:

1. `re.sub(r'server:\s+https://localhost:(\d+)',
           f'server: https://{current_hostname}:\\1', text)`
2. `re.sub(r'(server:\s+https://[^\n]+\n)',
           r'\1    insecure-skip-tls-verify: true\n', text)`

Both are embedded as left-to-right scanners over `List Char` that try a
match at each position and, on a match, emit the replacement and continue
after the matched span (the non-overlapping semantics of `re.sub`).  In both
patterns the greedy `\s+` / `\d+` / `[^\n]+` pieces are each followed by a
literal that their own character class excludes (`h`, end of pattern with
nothing further required, `\n` respectively), so maximal-munch with no
backtracking is exact. -/

def serverLit : List Char := "server:".data

def httpsLocalhostLit : List Char := "https://localhost:".data

def httpsLit : List Char := "https://".data

/-- Drop an exact literal prefix; `none` if the text does not start with it. -/
def dropLit : List Char → List Char → Option (List Char)
  | [], l => some l
  | _ :: _, [] => none
  | c :: cs, d :: ds => if c = d then dropLit cs ds else none

/-- `lit` and `l` agree on their common prefix (so a match of `lit` starting
at `l` is possible for some continuation of `l`). -/
def compatLit : List Char → List Char → Bool
  | [], _ => true
  | _ :: _, [] => true
  | c :: cs, d :: ds => c = d && compatLit cs ds

/-- Try pattern 1 at the head of `l`: on success return the captured port
digits and the text after the match. -/
def tryMatch1 (l : List Char) : Option (List Char × List Char) :=
  match dropLit serverLit l with
  | none => none
  | some l1 =>
    let ws := l1.takeWhile isPyWs
    if ws = [] then none
    else
      match dropLit httpsLocalhostLit (l1.drop ws.length) with
      | none => none
      | some l3 =>
        let ds := l3.takeWhile Char.isDigit
        if ds = [] then none else some (ds, l3.drop ds.length)

/-- The replacement template of pattern 1:
`f'server: https://{current_hostname}:\\1'`. -/
def repl1 (host ds : List Char) : List Char :=
  "server: https://".data ++ host ++ ':' :: ds

/-- Try pattern 2 at the head of `l`: on success return the matched span
(the whole group 1, including its trailing newline) and the rest. -/
def tryMatch2 (l : List Char) : Option (List Char × List Char) :=
  match dropLit serverLit l with
  | none => none
  | some l1 =>
    let ws := l1.takeWhile isPyWs
    if ws = [] then none
    else
      match dropLit httpsLit (l1.drop ws.length) with
      | none => none
      | some l2 =>
        let run := l2.takeWhile notNl
        if run = [] then none
        else
          match l2.drop run.length with
          | '\n' :: rest => some (serverLit ++ ws ++ httpsLit ++ run ++ ['\n'], rest)
          | _ => none

/-- The inserted line of pattern 2 (with its newline). -/
def insecureLine : List Char := "    insecure-skip-tls-verify: true\n".data

/-- Fuel-indexed scanner for pattern 1; `scan1` supplies `l.length` fuel,
which always suffices because every match consumes at least one character. -/
def scan1Fuel (host : List Char) : Nat → List Char → List Char
  | 0, l => l
  | _ + 1, [] => []
  | fuel + 1, c :: cs =>
    match tryMatch1 (c :: cs) with
    | some (ds, rest) => repl1 host ds ++ scan1Fuel host fuel rest
    | none => c :: scan1Fuel host fuel cs

/-- `re.sub` for pattern 1 over character lists. -/
def scan1 (host l : List Char) : List Char :=
  scan1Fuel host l.length l

/-- Fuel-indexed scanner for pattern 2. -/
def scan2Fuel : Nat → List Char → List Char
  | 0, l => l
  | _ + 1, [] => []
  | fuel + 1, c :: cs =>
    match tryMatch2 (c :: cs) with
    | some (m, rest) => m ++ insecureLine ++ scan2Fuel fuel rest
    | none => c :: scan2Fuel fuel cs

/-- `re.sub` for pattern 2 over character lists. -/
def scan2 (l : List Char) : List Char :=
  scan2Fuel l.length l

/-- First rewrite of the downloaded kubeconfig: point `server:` URLs at the
current hostname instead of localhost, preserving the port. -/
def sub1 (host content : String) : String :=
  ⟨scan1 host.data content.data⟩

/-- Second rewrite: insert `    insecure-skip-tls-verify: true` after every
newline-terminated `server: https://...` line. -/
def sub2 (content : String) : String :=
  ⟨scan2 content.data⟩

/-- The full rewrite `download_kubeconfig` applies to the kubeconfig text. -/
def rewriteKubeconfig (content host : String) : String :=
  sub2 (sub1 host content)

/-- `GET /kubeconfig`: 404 when the file is absent, otherwise the rewritten
content as an attachment. -/
def download_kubeconfig (env : SysEnv) : DownloadResponse :=
  match env.kubeconfigFile with
  | none => .notFound
  | some content => .file (rewriteKubeconfig content (get_current_hostname env))

/-! ## Lemmas about the rewriter scanners -/

theorem dropLit_eq_some {lit l r : List Char} :
    dropLit lit l = some r ↔ l = lit ++ r := by
  induction lit generalizing l with
  | nil => simp [dropLit, eq_comm]
  | cons c cs ih =>
    cases l with
    | nil => simp [dropLit]
    | cons d ds =>
      simp only [dropLit, List.cons_append]
      by_cases hcd : c = d
      · subst hcd
        simp [ih]
      · rw [if_neg hcd]
        constructor
        · intro h
          exact Option.noConfusion h
        · intro h
          injection h with h1 h2
          exact absurd h1.symm hcd

theorem dropLit_append_self (lit r : List Char) :
    dropLit lit (lit ++ r) = some r :=
  dropLit_eq_some.2 rfl

theorem dropLit_length {lit l r : List Char} (h : dropLit lit l = some r) :
    r.length + lit.length = l.length := by
  rw [dropLit_eq_some.1 h]
  simp [Nat.add_comm]

theorem compatLit_false_append {lit a : List Char} (b : List Char)
    (h : compatLit lit a = false) : compatLit lit (a ++ b) = false := by
  induction lit generalizing a with
  | nil => simp [compatLit] at h
  | cons c cs ih =>
    cases a with
    | nil => simp [compatLit] at h
    | cons d ds =>
      simp only [compatLit, Bool.and_eq_false_iff] at h ⊢
      rcases h with h | h
      · exact Or.inl h
      · exact Or.inr (ih h)

theorem dropLit_none_of_compat_false {lit l : List Char}
    (h : compatLit lit l = false) : dropLit lit l = none := by
  induction lit generalizing l with
  | nil => simp [compatLit] at h
  | cons c cs ih =>
    cases l with
    | nil => simp [compatLit] at h
    | cons d ds =>
      simp only [compatLit, Bool.and_eq_false_iff] at h
      rcases h with h | h
      · simp only [dropLit]
        rw [if_neg]
        simpa using h
      · by_cases hcd : c = d
        · subst hcd
          simp [dropLit, ih h]
        · simp [dropLit, hcd]

theorem tryMatch1_none_of_compat_false {l : List Char}
    (h : compatLit serverLit l = false) : tryMatch1 l = none := by
  simp [tryMatch1, dropLit_none_of_compat_false h]

theorem tryMatch2_none_of_compat_false {l : List Char}
    (h : compatLit serverLit l = false) : tryMatch2 l = none := by
  simp [tryMatch2, dropLit_none_of_compat_false h]

theorem tryMatch1_shrinks {l ds rest : List Char}
    (h : tryMatch1 l = some (ds, rest)) : rest.length < l.length := by
  unfold tryMatch1 at h
  cases h1 : dropLit serverLit l with
  | none => simp [h1] at h
  | some l1 =>
    rw [h1] at h
    simp only at h
    by_cases hws : l1.takeWhile isPyWs = []
    · simp [hws] at h
    · rw [if_neg hws] at h
      cases h3 : dropLit httpsLocalhostLit (l1.drop (l1.takeWhile isPyWs).length) with
      | none => simp [h3] at h
      | some l3 =>
        rw [h3] at h
        simp only at h
        by_cases hds : l3.takeWhile Char.isDigit = []
        · simp [hds] at h
        · rw [if_neg hds] at h
          simp only [Option.some.injEq, Prod.mk.injEq] at h
          have hlen1 := dropLit_length h1
          have hlen3 := dropLit_length h3
          have hdrop : (l1.drop (l1.takeWhile isPyWs).length).length ≤ l1.length := by
            simp [List.length_drop]
          have hrest : rest.length ≤ l3.length := by
            rw [← h.2]
            simp [List.length_drop]
          have hserver : serverLit.length = 7 := by decide
          omega

theorem tryMatch2_shrinks {l m rest : List Char}
    (h : tryMatch2 l = some (m, rest)) : rest.length < l.length := by
  unfold tryMatch2 at h
  cases h1 : dropLit serverLit l with
  | none => simp [h1] at h
  | some l1 =>
    rw [h1] at h
    simp only at h
    by_cases hws : l1.takeWhile isPyWs = []
    · simp [hws] at h
    · rw [if_neg hws] at h
      cases h2 : dropLit httpsLit (l1.drop (l1.takeWhile isPyWs).length) with
      | none => simp [h2] at h
      | some l2 =>
        rw [h2] at h
        simp only at h
        by_cases hrun : l2.takeWhile notNl = []
        · simp [hrun] at h
        · rw [if_neg hrun] at h
          cases h4 : l2.drop (l2.takeWhile notNl).length with
          | nil =>
            rw [h4] at h
            simp at h
          | cons c4 rest4 =>
            rw [h4] at h
            have hlen1 := dropLit_length h1
            have hlen2 := dropLit_length h2
            have hdrop : (l1.drop (l1.takeWhile isPyWs).length).length ≤ l1.length := by
              simp [List.length_drop]
            have hlen4 : (c4 :: rest4).length = l2.length - (l2.takeWhile notNl).length := by
              rw [← h4]
              simp [List.length_drop]
            have hserver : serverLit.length = 7 := by decide
            split at h
            · rename_i rest5 heq
              injection h with h5
              injection h5 with h5a h5b
              injection heq with heq1 heq2
              subst h5b
              subst heq2
              simp only [List.length_cons] at hlen4
              omega
            · exact absurd h (by simp)

theorem scan1Fuel_canon (host : List Char) :
    ∀ (f : Nat) (l : List Char), l.length ≤ f →
      scan1Fuel host f l = scan1Fuel host l.length l := by
  intro f
  induction f using Nat.strong_induction_on with
  | _ f ih =>
    intro l hl
    match f, l with
    | 0, l =>
      interval_cases hl2 : l.length
      · cases l with
        | nil => rfl
        | cons c cs => simp at hl2
    | f + 1, [] => rfl
    | f + 1, c :: cs =>
      simp only [List.length_cons] at hl ⊢
      show scan1Fuel host (f + 1) (c :: cs) = scan1Fuel host (cs.length + 1) (c :: cs)
      simp only [scan1Fuel]
      cases hm : tryMatch1 (c :: cs) with
      | some p =>
        cases p with
        | mk ds rest =>
          have hr := tryMatch1_shrinks hm
          simp only [List.length_cons] at hr
          dsimp only
          rw [ih f (by omega) rest (by omega),
              ih cs.length (by omega) rest (by omega)]
      | none =>
        dsimp only
        rw [ih f (by omega) cs (by omega),
            ih cs.length (by omega) cs (by omega)]

theorem scan2Fuel_canon :
    ∀ (f : Nat) (l : List Char), l.length ≤ f →
      scan2Fuel f l = scan2Fuel l.length l := by
  intro f
  induction f using Nat.strong_induction_on with
  | _ f ih =>
    intro l hl
    match f, l with
    | 0, l =>
      interval_cases hl2 : l.length
      · cases l with
        | nil => rfl
        | cons c cs => simp at hl2
    | f + 1, [] => rfl
    | f + 1, c :: cs =>
      simp only [List.length_cons] at hl ⊢
      show scan2Fuel (f + 1) (c :: cs) = scan2Fuel (cs.length + 1) (c :: cs)
      simp only [scan2Fuel]
      cases hm : tryMatch2 (c :: cs) with
      | some p =>
        cases p with
        | mk m rest =>
          have hr := tryMatch2_shrinks hm
          simp only [List.length_cons] at hr
          dsimp only
          rw [ih f (by omega) rest (by omega),
              ih cs.length (by omega) rest (by omega)]
      | none =>
        dsimp only
        rw [ih f (by omega) cs (by omega),
            ih cs.length (by omega) cs (by omega)]

theorem scan1_nil (host : List Char) : scan1 host [] = [] := rfl

theorem scan1_cons_match {host : List Char} {c : Char} {cs ds rest : List Char}
    (h : tryMatch1 (c :: cs) = some (ds, rest)) :
    scan1 host (c :: cs) = repl1 host ds ++ scan1 host rest := by
  have hr := tryMatch1_shrinks h
  simp only [List.length_cons] at hr
  show scan1Fuel host (c :: cs).length (c :: cs) = _
  simp only [List.length_cons, scan1Fuel, h]
  rw [scan1Fuel_canon host cs.length rest (by omega)]
  rfl

theorem scan1_cons_nomatch {host : List Char} {c : Char} {cs : List Char}
    (h : tryMatch1 (c :: cs) = none) :
    scan1 host (c :: cs) = c :: scan1 host cs := by
  show scan1Fuel host (c :: cs).length (c :: cs) = _
  simp only [List.length_cons, scan1Fuel, h]
  rfl

theorem scan2_nil : scan2 [] = [] := rfl

theorem scan2_cons_match {c : Char} {cs m rest : List Char}
    (h : tryMatch2 (c :: cs) = some (m, rest)) :
    scan2 (c :: cs) = m ++ insecureLine ++ scan2 rest := by
  have hr := tryMatch2_shrinks h
  simp only [List.length_cons] at hr
  show scan2Fuel (c :: cs).length (c :: cs) = _
  simp only [List.length_cons, scan2Fuel, h]
  rw [scan2Fuel_canon cs.length rest (by omega)]
  simp [scan2, List.append_assoc]

theorem scan2_cons_nomatch {c : Char} {cs : List Char}
    (h : tryMatch2 (c :: cs) = none) :
    scan2 (c :: cs) = c :: scan2 cs := by
  show scan2Fuel (c :: cs).length (c :: cs) = _
  simp only [List.length_cons, scan2Fuel, h]
  rfl

/-- Positions of `a` at which no match of either pattern can begin, whatever
text follows `a`: no nonempty suffix of `a` agrees with `server:` on their
common prefix.  Both rewrite patterns begin with the literal `server:`. -/
def CleanBefore (a : List Char) : Prop :=
  ∀ i, i < a.length → compatLit serverLit (a.drop i) = false

/-- Boolean form of `CleanBefore`, for concrete inputs. -/
def cleanBeforeB (a : List Char) : Bool :=
  (List.range a.length).all fun i => !(compatLit serverLit (a.drop i))

theorem cleanBefore_of_b {a : List Char} (h : cleanBeforeB a = true) :
    CleanBefore a := by
  intro i hi
  have := List.all_eq_true.1 h i (List.mem_range.2 hi)
  simpa using this

theorem cleanBefore_tail {c : Char} {a : List Char}
    (h : CleanBefore (c :: a)) : CleanBefore a := by
  intro i hi
  have := h (i + 1) (by simpa using Nat.succ_lt_succ hi)
  simpa using this

theorem scan1_append (host : List Char) :
    ∀ a b : List Char, CleanBefore a →
      scan1 host (a ++ b) = a ++ scan1 host b := by
  intro a
  induction a with
  | nil => simp
  | cons c cs ih =>
    intro b hclean
    have h0 : compatLit serverLit (c :: cs) = false := by
      simpa using hclean 0 (by simp)
    have hcc : compatLit serverLit ((c :: cs) ++ b) = false :=
      compatLit_false_append b h0
    have hnone : tryMatch1 ((c :: cs) ++ b) = none :=
      tryMatch1_none_of_compat_false hcc
    simp only [List.cons_append] at hnone ⊢
    rw [scan1_cons_nomatch hnone, ih b (cleanBefore_tail hclean)]

theorem scan2_append :
    ∀ a b : List Char, CleanBefore a →
      scan2 (a ++ b) = a ++ scan2 b := by
  intro a
  induction a with
  | nil => simp
  | cons c cs ih =>
    intro b hclean
    have h0 : compatLit serverLit (c :: cs) = false := by
      simpa using hclean 0 (by simp)
    have hcc : compatLit serverLit ((c :: cs) ++ b) = false :=
      compatLit_false_append b h0
    have hnone : tryMatch2 ((c :: cs) ++ b) = none :=
      tryMatch2_none_of_compat_false hcc
    simp only [List.cons_append] at hnone ⊢
    rw [scan2_cons_nomatch hnone, ih b (cleanBefore_tail hclean)]

theorem scan1_eq_self {host a : List Char} (h : CleanBefore a) :
    scan1 host a = a := by
  have := scan1_append host a [] h
  simpa [scan1_nil] using this

theorem scan2_eq_self {a : List Char} (h : CleanBefore a) :
    scan2 a = a := by
  have := scan2_append a [] h
  simpa [scan2_nil] using this

theorem takeWhile_append_stop {p : Char → Bool} {ds : List Char}
    (hall : ∀ c ∈ ds, p c = true) {x : Char} (hx : p x = false)
    (t : List Char) : (ds ++ x :: t).takeWhile p = ds := by
  induction ds with
  | nil => simp [List.takeWhile_cons, hx]
  | cons d ds ih =>
    have hd : p d = true := hall d (by simp)
    simp only [List.cons_append, List.takeWhile_cons, hd, if_true]
    rw [ih (fun c hc => hall c (by simp [hc]))]

theorem tryMatch1_at {ds : List Char} (hall : ∀ c ∈ ds, c.isDigit = true)
    (hne : ds ≠ []) (post : List Char) :
    tryMatch1 ("server: https://localhost:".data ++ ds ++ '\n' :: post) =
      some (ds, '\n' :: post) := by
  have hsplit : ("server: https://localhost:".data : List Char) =
      serverLit ++ [' '] ++ httpsLocalhostLit := by rfl
  rw [hsplit]
  have hassoc : serverLit ++ [' '] ++ httpsLocalhostLit ++ ds ++ '\n' :: post =
      serverLit ++ (' ' :: (httpsLocalhostLit ++ (ds ++ '\n' :: post))) := by
    simp [List.append_assoc]
  rw [hassoc]
  unfold tryMatch1
  rw [dropLit_append_self]
  dsimp only
  have hws : (' ' :: (httpsLocalhostLit ++ (ds ++ '\n' :: post))).takeWhile isPyWs
      = [' '] := by
    have h1 : isPyWs ' ' = true := by decide
    have h2 : isPyWs 'h' = false := by decide
    simp only [List.takeWhile_cons, h1, if_true]
    show ' ' :: List.takeWhile isPyWs ('h' :: (("ttps://localhost:".data ++ (ds ++ '\n' :: post)))) = [' ']
    simp [List.takeWhile_cons, h2]
  rw [hws]
  simp only [List.length_cons, List.length_nil, List.drop_succ_cons, List.drop_zero]
  rw [dropLit_append_self]
  have hds : (ds ++ '\n' :: post).takeWhile Char.isDigit = ds :=
    takeWhile_append_stop hall (by decide) post
  simp only [hds, if_neg hne, hne]
  simp [List.drop_left]

theorem tryMatch2_at {mid : List Char} (hmid : ∀ c ∈ mid, notNl c = true)
    (hne : mid ≠ []) (post : List Char) :
    tryMatch2 ("server: https://".data ++ mid ++ '\n' :: post) =
      some ("server: https://".data ++ mid ++ ['\n'], post) := by
  have hsplit : ("server: https://".data : List Char) =
      serverLit ++ [' '] ++ httpsLit := by rfl
  rw [hsplit]
  have hassoc : serverLit ++ [' '] ++ httpsLit ++ mid ++ '\n' :: post =
      serverLit ++ (' ' :: (httpsLit ++ (mid ++ '\n' :: post))) := by
    simp [List.append_assoc]
  rw [hassoc]
  unfold tryMatch2
  rw [dropLit_append_self]
  dsimp only
  have hws : (' ' :: (httpsLit ++ (mid ++ '\n' :: post))).takeWhile isPyWs
      = [' '] := by
    have h1 : isPyWs ' ' = true := by decide
    have h2 : isPyWs 'h' = false := by decide
    simp only [List.takeWhile_cons, h1, if_true]
    show ' ' :: List.takeWhile isPyWs ('h' :: (("ttps://".data ++ (mid ++ '\n' :: post)))) = [' ']
    simp [List.takeWhile_cons, h2]
  rw [hws]
  simp only [List.length_cons, List.length_nil, List.drop_succ_cons, List.drop_zero]
  rw [dropLit_append_self]
  have hrun : (mid ++ '\n' :: post).takeWhile notNl = mid :=
    takeWhile_append_stop hmid (by decide) post
  simp only [hrun, if_neg hne]
  simp [List.drop_left, List.append_assoc]

/-- A successful pattern-2 match needs a newline inside the text. -/
theorem tryMatch2_mem_nl {l m rest : List Char}
    (h : tryMatch2 l = some (m, rest)) : '\n' ∈ l := by
  unfold tryMatch2 at h
  cases h1 : dropLit serverLit l with
  | none => simp [h1] at h
  | some l1 =>
    rw [h1] at h
    simp only at h
    by_cases hws : l1.takeWhile isPyWs = []
    · simp [hws] at h
    · rw [if_neg hws] at h
      cases h2 : dropLit httpsLit (l1.drop (l1.takeWhile isPyWs).length) with
      | none => simp [h2] at h
      | some l2 =>
        rw [h2] at h
        simp only at h
        by_cases hrun : l2.takeWhile notNl = []
        · simp [hrun] at h
        · rw [if_neg hrun] at h
          cases h4 : l2.drop (l2.takeWhile notNl).length with
          | nil =>
            rw [h4] at h
            simp at h
          | cons c4 rest4 =>
            rw [h4] at h
            have hmem2 : '\n' ∈ l2 := by
              split at h
              · rename_i rest5 heq
                injection heq with heq1 heq2
                have : c4 ∈ l2.drop (l2.takeWhile notNl).length := by
                  rw [h4]
                  simp
                rw [heq1] at this
                exact List.mem_of_mem_drop this
              · exact absurd h (by simp)
            have hmem1 : '\n' ∈ l1 := by
              have hmem2b : '\n' ∈ l1.drop (l1.takeWhile isPyWs).length := by
                rw [dropLit_eq_some.1 h2]
                simp [hmem2]
              exact List.mem_of_mem_drop hmem2b
            rw [dropLit_eq_some.1 h1]
            simp [hmem1]

/-- Pattern 2 never rewrites newline-free text. -/
theorem scan2_eq_self_of_no_nl {l : List Char} (h : '\n' ∉ l) :
    scan2 l = l := by
  induction l with
  | nil => exact scan2_nil
  | cons c cs ih =>
    have hnone : tryMatch2 (c :: cs) = none := by
      cases hm : tryMatch2 (c :: cs) with
      | none => rfl
      | some p =>
        cases p with
        | mk m rest => exact absurd (tryMatch2_mem_nl hm) h
    rw [scan2_cons_nomatch hnone, ih (fun hc => h (by simp [hc]))]

theorem scan1_match {host l ds rest : List Char}
    (h : tryMatch1 l = some (ds, rest)) :
    scan1 host l = repl1 host ds ++ scan1 host rest := by
  cases l with
  | nil =>
    have : tryMatch1 [] = none := rfl
    rw [this] at h
    exact Option.noConfusion h
  | cons c cs => exact scan1_cons_match h

theorem scan2_match {l m rest : List Char}
    (h : tryMatch2 l = some (m, rest)) :
    scan2 l = m ++ insecureLine ++ scan2 rest := by
  cases l with
  | nil =>
    have : tryMatch2 [] = none := rfl
    rw [this] at h
    exact Option.noConfusion h
  | cons c cs => exact scan2_cons_match h

theorem notNl_of_digit {c : Char} (h : c.isDigit = true) : notNl c = true := by
  by_cases hc : c = '\n'
  · subst hc
    simp at h
  · simp [notNl, hc]

theorem nl_not_mem_of_digits {ds : List Char}
    (h : ∀ c ∈ ds, c.isDigit = true) : '\n' ∉ ds := by
  intro hmem
  have := h '\n' hmem
  simp at this

/-- One-occurrence behaviour of the two chained rewrites, at the character
level: a `server: https://localhost:<port>` line inside text that matches
nowhere else is pointed at `host` with the port preserved, and the insecure
flag line is inserted right after it. -/
theorem rewrite_one_occ (host ds pre post : List Char)
    (hpre : CleanBefore pre) (hpost : CleanBefore post)
    (hds : ∀ c ∈ ds, c.isDigit = true) (hdsne : ds ≠ [])
    (hhost : '\n' ∉ host) :
    scan2 (scan1 host
        (pre ++ "server: https://localhost:".data ++ ds ++ '\n' :: post)) =
      pre ++ "server: https://".data ++ host ++ ':' :: ds ++
        '\n' :: (insecureLine ++ post) := by
  have hmid : ∀ c ∈ host ++ ':' :: ds, notNl c = true := by
    intro c hc
    rcases List.mem_append.1 hc with hc | hc
    · have : c ≠ '\n' := fun he => hhost (he ▸ hc)
      simp [notNl, this]
    · rcases List.mem_cons.1 hc with hc | hc
      · subst hc
        decide
      · exact notNl_of_digit (hds c hc)
  have hmidne : host ++ ':' :: ds ≠ [] := by simp
  have hb1 : scan1 host ("server: https://localhost:".data ++ ds ++ '\n' :: post)
      = repl1 host ds ++ '\n' :: post := by
    rw [scan1_match (tryMatch1_at hds hdsne post)]
    have hnl : tryMatch1 ('\n' :: post) = none := rfl
    rw [scan1_cons_nomatch hnl, scan1_eq_self hpost]
  have harg : pre ++ "server: https://localhost:".data ++ ds ++ '\n' :: post
      = pre ++ ("server: https://localhost:".data ++ ds ++ '\n' :: post) := by
    simp [List.append_assoc]
  have hrepl : repl1 host ds ++ '\n' :: post =
      "server: https://".data ++ (host ++ ':' :: ds) ++ '\n' :: post := by
    simp [repl1, List.append_assoc]
  have hb2 : scan2 ("server: https://".data ++ (host ++ ':' :: ds) ++ '\n' :: post)
      = ("server: https://".data ++ (host ++ ':' :: ds) ++ ['\n']) ++
        (insecureLine ++ post) := by
    rw [scan2_match (tryMatch2_at hmid hmidne post), scan2_eq_self hpost]
    simp [List.append_assoc]
  rw [harg, scan1_append host pre _ hpre, hb1, hrepl, scan2_append pre _ hpre, hb2]
  simp [List.append_assoc]

/-! ## Block decomposition: documents with any number of `server:` lines -/

/-- A document consisting of `localhost` server blocks: each block is
non-interfering context followed by a `server: https://localhost:<port>` line;
`post` is the trailing context. -/
def blocksL : List (List Char × List Char) → List Char → List Char
  | [], post => post
  | (pre, ds) :: rest, post =>
    pre ++ "server: https://localhost:".data ++ ds ++ '\n' :: blocksL rest post

/-- The same document after the first rewrite (hostname substituted). -/
def blocks1L (host : List Char) : List (List Char × List Char) → List Char → List Char
  | [], post => post
  | (pre, ds) :: rest, post =>
    pre ++ "server: https://".data ++ host ++ ':' :: ds ++
      '\n' :: blocks1L host rest post

/-- The same document after both rewrites (insecure flag inserted after every
server line). -/
def blocks2L (host : List Char) : List (List Char × List Char) → List Char → List Char
  | [], post => post
  | (pre, ds) :: rest, post =>
    pre ++ "server: https://".data ++ host ++ ':' :: ds ++
      '\n' :: (insecureLine ++ blocks2L host rest post)

/-- Hypotheses on a block list: every context part is match-free and every
port part is a nonempty digit string. -/
def GoodBlocks (l : List (List Char × List Char)) : Prop :=
  ∀ pd ∈ l, CleanBefore pd.1 ∧ pd.2 ≠ [] ∧ ∀ c ∈ pd.2, c.isDigit = true

theorem scan1_blocksL (host : List Char) :
    ∀ (l : List (List Char × List Char)) (post : List Char),
      GoodBlocks l → CleanBefore post →
      scan1 host (blocksL l post) = blocks1L host l post := by
  intro l
  induction l with
  | nil => exact fun post _ hpost => scan1_eq_self hpost
  | cons pd rest ih =>
    intro post hgood hpost
    obtain ⟨hpre, hdsne, hds⟩ := hgood pd (by simp)
    cases pd with
    | mk pre ds =>
      show scan1 host
        (pre ++ "server: https://localhost:".data ++ ds ++ '\n' :: blocksL rest post) = _
      have harg : pre ++ "server: https://localhost:".data ++ ds ++ '\n' :: blocksL rest post
          = pre ++ ("server: https://localhost:".data ++ ds ++ '\n' :: blocksL rest post) := by
        simp [List.append_assoc]
      rw [harg, scan1_append host pre _ hpre,
        scan1_match (tryMatch1_at hds hdsne (blocksL rest post))]
      have hnl : tryMatch1 ('\n' :: blocksL rest post) = none := rfl
      rw [scan1_cons_nomatch hnl,
        ih post (fun x hx => hgood x (by simp [hx])) hpost]
      show _ = pre ++ "server: https://".data ++ host ++ ':' :: ds ++
        '\n' :: blocks1L host rest post
      simp [repl1, List.append_assoc]

theorem scan2_blocks1L (host : List Char) (hhost : '\n' ∉ host) :
    ∀ (l : List (List Char × List Char)) (post : List Char),
      GoodBlocks l → CleanBefore post →
      scan2 (blocks1L host l post) = blocks2L host l post := by
  intro l
  induction l with
  | nil => exact fun post _ hpost => scan2_eq_self hpost
  | cons pd rest ih =>
    intro post hgood hpost
    obtain ⟨hpre, hdsne, hds⟩ := hgood pd (by simp)
    cases pd with
    | mk pre ds =>
      have hmid : ∀ c ∈ host ++ ':' :: ds, notNl c = true := by
        intro c hc
        rcases List.mem_append.1 hc with hc | hc
        · have : c ≠ '\n' := fun he => hhost (he ▸ hc)
          simp [notNl, this]
        · rcases List.mem_cons.1 hc with hc | hc
          · subst hc
            decide
          · exact notNl_of_digit (hds c hc)
      have hmidne : host ++ ':' :: ds ≠ [] := by simp
      show scan2 (pre ++ "server: https://".data ++ host ++ ':' :: ds ++
        '\n' :: blocks1L host rest post) = _
      have harg : pre ++ "server: https://".data ++ host ++ ':' :: ds ++
          '\n' :: blocks1L host rest post
          = pre ++ ("server: https://".data ++ (host ++ ':' :: ds) ++
            '\n' :: blocks1L host rest post) := by
        simp [List.append_assoc]
      rw [harg, scan2_append pre _ hpre,
        scan2_match (tryMatch2_at hmid hmidne (blocks1L host rest post)),
        ih post (fun x hx => hgood x (by simp [hx])) hpost]
      show _ = pre ++ "server: https://".data ++ host ++ ':' :: ds ++
        '\n' :: (insecureLine ++ blocks2L host rest post)
      simp [List.append_assoc]

/-- String-level server-block document. -/
def serverBlocks : List (String × String) → String → String
  | [], post => post
  | (pre, ds) :: rest, post =>
    pre ++ "server: https://localhost:" ++ ds ++ "\n" ++ serverBlocks rest post

/-- String-level fully rewritten server-block document. -/
def serverBlocksRewritten (host : String) : List (String × String) → String → String
  | [], post => post
  | (pre, ds) :: rest, post =>
    pre ++ "server: https://" ++ host ++ ":" ++ ds ++ "\n" ++
      "    insecure-skip-tls-verify: true\n" ++ serverBlocksRewritten host rest post

/-- The character-list image of a String-level block list. -/
def toBlocksL (l : List (String × String)) : List (List Char × List Char) :=
  l.map fun pd => (pd.1.data, pd.2.data)

theorem serverBlocks_data (l : List (String × String)) (post : String) :
    (serverBlocks l post).data = blocksL (toBlocksL l) post.data := by
  induction l with
  | nil => rfl
  | cons pd rest ih =>
    cases pd with
    | mk pre ds =>
      show (pre ++ "server: https://localhost:" ++ ds ++ "\n" ++ serverBlocks rest post).data = _
      have hnl : ("\n" : String).data = ['\n'] := rfl
      simp [String.data_append, hnl, ih, toBlocksL, blocksL, List.append_assoc]

theorem serverBlocksRewritten_data (host : String) (l : List (String × String))
    (post : String) :
    (serverBlocksRewritten host l post).data =
      blocks2L host.data (toBlocksL l) post.data := by
  induction l with
  | nil => rfl
  | cons pd rest ih =>
    cases pd with
    | mk pre ds =>
      show (pre ++ "server: https://" ++ host ++ ":" ++ ds ++ "\n" ++
        "    insecure-skip-tls-verify: true\n" ++ serverBlocksRewritten host rest post).data = _
      have hnl : ("\n" : String).data = ['\n'] := rfl
      have hcolon : (":" : String).data = [':'] := rfl
      simp [String.data_append, hnl, hcolon, ih, toBlocksL, blocks2L,
        insecureLine, List.append_assoc]

/-! ## Claim C2 -/

/-- C2: the download handler's rewrite replaces every occurrence of
`server: https://localhost:<port>` with `server: https://<hostname>:<port>`,
preserving the captured port digits exactly, and inserts
`    insecure-skip-tls-verify: true` immediately after every
newline-terminated `server: https://...` line: stated for a document with any
number of server blocks, an arbitrary hostname, arbitrary port digits and
arbitrary non-interfering context around each block, together with the
claim's concrete two-`server:`-line document, which receives the
insecure-flag line after each of the two lines. -/
theorem c2_kubeconfig_rewrite :
    (∀ (host post : String) (l : List (String × String)),
      (∀ pd ∈ l, cleanBeforeB pd.1.data = true ∧ pd.2.data ≠ [] ∧
        ∀ c ∈ pd.2.data, c.isDigit = true) →
      cleanBeforeB post.data = true → '\n' ∉ host.data →
      rewriteKubeconfig (serverBlocks l post) host =
        serverBlocksRewritten host l post) ∧
    rewriteKubeconfig
        "a:\n    server: https://localhost:6443\n    server: https://other.host:8443\nend\n"
        "foo.example.com" =
      "a:\n    server: https://foo.example.com:6443\n    insecure-skip-tls-verify: true\n    server: https://other.host:8443\n    insecure-skip-tls-verify: true\nend\n" := by
  constructor
  · intro host post l hl hpost hhost
    have hgood : GoodBlocks (toBlocksL l) := by
      intro pd hpd
      rcases List.mem_map.1 hpd with ⟨qd, hqd, rfl⟩
      obtain ⟨hq1, hq2, hq3⟩ := hl qd hqd
      exact ⟨cleanBefore_of_b hq1, hq2, hq3⟩
    refine String.ext ?_
    show scan2 (scan1 host.data (serverBlocks l post).data) = _
    rw [serverBlocks_data,
      scan1_blocksL host.data _ post.data hgood (cleanBefore_of_b hpost),
      scan2_blocks1L host.data hhost _ post.data hgood (cleanBefore_of_b hpost),
      serverBlocksRewritten_data]
  · decide

/-- Witness for C2 at concrete inputs: hostname `foo.example.com`, port
`6443`, a realistic kubeconfig context around one server block. -/
theorem c2_kubeconfig_rewrite_witness :
    rewriteKubeconfig
        (serverBlocks [("apiVersion: v1\nclusters:\n- cluster:\n    ", "6443")]
          "  name: microshift\n") "foo.example.com" =
      serverBlocksRewritten "foo.example.com"
        [("apiVersion: v1\nclusters:\n- cluster:\n    ", "6443")]
        "  name: microshift\n" :=
  c2_kubeconfig_rewrite.1 "foo.example.com" "  name: microshift\n"
    [("apiVersion: v1\nclusters:\n- cluster:\n    ", "6443")]
    (by decide) (by decide) (by decide)

/-! ## Claim C9 -/

/-- C9: the insecure-flag insertion pattern requires the `server:` line to be
terminated by a newline character: a final `server: https://...` line with no
trailing newline receives no inserted line, while the same line
newline-terminated does. -/
theorem c9_insert_requires_newline :
    ∀ pre tail : String, cleanBeforeB pre.data = true → '\n' ∉ tail.data →
      tail.data ≠ [] →
      sub2 (pre ++ "server: https://" ++ tail) = pre ++ "server: https://" ++ tail ∧
      sub2 (pre ++ "server: https://" ++ tail ++ "\n") =
        pre ++ "server: https://" ++ tail ++ "\n" ++
          "    insecure-skip-tls-verify: true\n" := by
  intro pre tail hpre htail htailne
  have hpreP := cleanBefore_of_b hpre
  constructor
  · refine String.ext ?_
    show scan2 (pre ++ "server: https://" ++ tail).data = _
    have hdata : (pre ++ "server: https://" ++ tail).data =
        pre.data ++ ("server: https://".data ++ tail.data) := by
      simp [String.data_append, List.append_assoc]
    rw [hdata, scan2_append pre.data _ hpreP]
    have hnonl : '\n' ∉ "server: https://".data ++ tail.data := by
      intro hmem
      rcases List.mem_append.1 hmem with h | h
      · revert h
        decide
      · exact htail h
    rw [scan2_eq_self_of_no_nl hnonl]
  · refine String.ext ?_
    show scan2 (pre ++ "server: https://" ++ tail ++ "\n").data = _
    have hmid : ∀ c ∈ tail.data, notNl c = true := by
      intro c hc
      have : c ≠ '\n' := fun he => htail (he ▸ hc)
      simp [notNl, this]
    have hdata : (pre ++ "server: https://" ++ tail ++ "\n").data =
        pre.data ++ ("server: https://".data ++ tail.data ++ '\n' :: []) := by
      have hnl : ("\n" : String).data = ['\n'] := rfl
      simp [String.data_append, hnl, List.append_assoc]
    rw [hdata, scan2_append pre.data _ hpreP,
        scan2_match (tryMatch2_at hmid htailne []), scan2_nil]
    simp [String.data_append, insecureLine, List.append_assoc]

/-- Witness for C9: the trailing document fragment
`x:\n    server: https://h:6443` gets no insertion without the final newline
and one insertion with it. -/
theorem c9_insert_requires_newline_witness :
    sub2 ("x:\n    " ++ "server: https://" ++ "h:6443") =
        "x:\n    " ++ "server: https://" ++ "h:6443" ∧
      sub2 ("x:\n    " ++ "server: https://" ++ "h:6443" ++ "\n") =
        "x:\n    " ++ "server: https://" ++ "h:6443" ++ "\n" ++
          "    insecure-skip-tls-verify: true\n" :=
  c9_insert_requires_newline "x:\n    " "h:6443" (by decide) (by decide) (by decide)

/-! ## Claim C4 -/

theorem needsQuote_iff (s : String) :
    needsQuote s = true ↔
      (':' ∈ s.data ∨ '#' ∈ s.data ∨ s.data.take 1 = ['-']) := by
  unfold needsQuote
  cases h : s.data with
  | nil => simp
  | cons c cs => simp [List.elem_iff, or_assoc]

/-- C4: the scalar formatter emits `null` for null, `true`/`false` for
booleans, the string wrapped verbatim in double quotes when it contains `:`
or `#` or starts with `-`, the string unchanged otherwise, and the default
text representation for other (numeric) values; in particular `"x:y"` is
quoted and a plain alphanumeric string passes through. -/
theorem c4_yaml_value_rules :
    yaml_value .null = "null" ∧
    (∀ b : Bool, yaml_value (.bool b) = if b then "true" else "false") ∧
    (∀ s : String, (':' ∈ s.data ∨ '#' ∈ s.data ∨ s.data.take 1 = ['-']) →
      yaml_value (.str s) = "\"" ++ s ++ "\"") ∧
    (∀ s : String, ¬(':' ∈ s.data ∨ '#' ∈ s.data ∨ s.data.take 1 = ['-']) →
      yaml_value (.str s) = s) ∧
    (∀ n : Int, yaml_value (.int n) = toString n) ∧
    yaml_value (.str "x:y") = "\"x:y\"" ∧
    yaml_value (.str "abc123") = "abc123" := by
  refine ⟨rfl, fun b => rfl, ?_, ?_, fun n => rfl, by decide, by decide⟩
  · intro s hs
    have hq : needsQuote s = true := (needsQuote_iff s).2 hs
    simp [yaml_value, hq]
  · intro s hs
    have hq : needsQuote s = false := by
      cases hv : needsQuote s with
      | false => rfl
      | true => exact absurd ((needsQuote_iff s).1 hv) hs
    simp [yaml_value, hq]

/-- Witness for C4 at concrete strings on the two conditional branches. -/
theorem c4_yaml_value_rules_witness :
    yaml_value (.str "p#q") = "\"p#q\"" ∧ yaml_value (.str "plain") = "plain" :=
  ⟨c4_yaml_value_rules.2.2.1 "p#q" (Or.inr (Or.inl (by decide))),
   c4_yaml_value_rules.2.2.2.1 "plain" (by decide)⟩

/-! ## Claim C5 -/

/-- C5 counterexample: a list whose element is a map is rendered as a bare
`-` line (no trailing space) with the nested content on the following lines,
not as `- ` followed by the nested content.  The first two characters of the
rendering are `-` and a newline, not `- `. -/
theorem c5_counterexample :
    json_to_yaml (.list (.cons (.dict (.cons "a" (.scalar (.str "b")) .nil)) .nil)) 0 =
      "-\n  a: b" ∧
    (json_to_yaml (.list (.cons (.dict (.cons "a" (.scalar (.str "b")) .nil)) .nil)) 0).data.take 2 =
      ['-', '\n'] ∧
    (json_to_yaml (.list (.cons (.dict (.cons "a" (.scalar (.str "b")) .nil)) .nil)) 0).data.take 2 ≠
      "- ".data := by
  refine ⟨by decide, by decide, by decide⟩

/-- C5 amended: scalar list elements render as `- ` followed by the inline
formatted scalar; map and list elements render as `-` alone on its line,
followed by the nested content on the next lines at one deeper indent. -/
theorem c5_list_rendering :
    (∀ (ind : Nat) (s : Scalar) (rest : JsonList),
      json_to_yaml (.list (.cons (.scalar s) rest)) ind =
        joinNl ((indentStr ind ++ "- " ++ yaml_value s) :: listLines rest ind)) ∧
    (∀ (ind : Nat) (kvs : JsonEntries) (rest : JsonList),
      json_to_yaml (.list (.cons (.dict kvs) rest)) ind =
        joinNl ((indentStr ind ++ "-") ::
          json_to_yaml (.dict kvs) (ind + 1) :: listLines rest ind)) ∧
    (∀ (ind : Nat) (xs : JsonList) (rest : JsonList),
      json_to_yaml (.list (.cons (.list xs) rest)) ind =
        joinNl ((indentStr ind ++ "-") ::
          json_to_yaml (.list xs) (ind + 1) :: listLines rest ind)) ∧
    json_to_yaml (.list (.cons (.dict (.cons "a" (.scalar (.str "b")) .nil))
      (.cons (.scalar (.str "c")) .nil))) 0 = "-\n  a: b\n- c" := by
  refine ⟨?_, ?_, ?_, by decide⟩
  · intro ind s rest
    simp [json_to_yaml, listLines]
  · intro ind kvs rest
    simp [json_to_yaml, listLines]
  · intro ind xs rest
    simp [json_to_yaml, listLines]

/-! ## Claim C6 -/

/-- C6 counterexample: the emitter collapses distinct values of the
restricted model to the same text — the maps `{"a": "true"}` (string) and
`{"a": true}` (boolean) both serialize to `a: true` — so no YAML reader can
reconstruct the original structure for all inputs of the model. -/
theorem c6_counterexample :
    json_to_yaml (.dict (.cons "a" (.scalar (.str "true")) .nil)) 0 = "a: true" ∧
    json_to_yaml (.dict (.cons "a" (.scalar (.bool true)) .nil)) 0 = "a: true" ∧
    Json.dict (.cons "a" (.scalar (.str "true")) .nil) ≠
      Json.dict (.cons "a" (.scalar (.bool true)) .nil) ∧
    ¬ ∃ parse : String → Json, ∀ v : Json, parse (json_to_yaml v 0) = v := by
  have hne : Json.dict (.cons "a" (.scalar (.str "true")) .nil) ≠
      Json.dict (.cons "a" (.scalar (.bool true)) .nil) := by simp
  refine ⟨rfl, rfl, hne, ?_⟩
  rintro ⟨parse, hp⟩
  have h1 := hp (.dict (.cons "a" (.scalar (.str "true")) .nil))
  have h2 := hp (.dict (.cons "a" (.scalar (.bool true)) .nil))
  rw [show json_to_yaml (.dict (.cons "a" (.scalar (.str "true")) .nil)) 0 =
    "a: true" from rfl] at h1
  rw [show json_to_yaml (.dict (.cons "a" (.scalar (.bool true)) .nil)) 0 =
    "a: true" from rfl] at h2
  exact hne (h1.symm.trans h2)

theorem crDoc_emit (bd img : String)
    (h1 : needsQuote bd = false) (h2 : needsQuote img = false) :
    json_to_yaml (crDoc bd img) 0 =
      "apiVersion: jumpstarter.dev/v1alpha1\nkind: Jumpstarter\nmetadata:\n  name: jumpstarter\n  namespace: default\nspec:\n  baseDomain: " ++
        bd ++ "\n  image: " ++ img := by
  have e0 : indentStr 0 = "" := rfl
  have e1 : indentStr 1 = "  " := rfl
  have q1 : needsQuote "jumpstarter.dev/v1alpha1" = false := by decide
  have q2 : needsQuote "Jumpstarter" = false := by decide
  have q3 : needsQuote "jumpstarter" = false := by decide
  have q4 : needsQuote "default" = false := by decide
  refine String.ext ?_
  simp [crDoc, json_to_yaml, dictLines, yaml_value, h1, h2, q1, q2, q3, q4,
    joinNl, e0, e1, String.data_append]

theorem no_nl_append_inj {xs1 xs2 t1 t2 : List Char}
    (h1 : '\n' ∉ xs1) (h2 : '\n' ∉ xs2)
    (h : xs1 ++ '\n' :: t1 = xs2 ++ '\n' :: t2) : xs1 = xs2 ∧ t1 = t2 := by
  induction xs1 generalizing xs2 with
  | nil =>
    cases xs2 with
    | nil => simpa using h
    | cons c cs =>
      simp only [List.nil_append, List.cons_append, List.cons.injEq] at h
      exact absurd (h.1 ▸ List.mem_cons_self c cs) h2
  | cons c cs ih =>
    cases xs2 with
    | nil =>
      simp only [List.nil_append, List.cons_append, List.cons.injEq] at h
      exact absurd (h.1.symm ▸ List.mem_cons_self c cs) h1
    | cons d ds =>
      simp only [List.cons_append, List.cons.injEq] at h
      have hrec := ih (fun hm => h1 (List.mem_cons_of_mem c hm))
        (fun hm => h2 (List.mem_cons_of_mem d hm)) h.2
      exact ⟨by rw [h.1, hrec.1], hrec.2⟩

/-- C6 amended: while the emitter is not injective on the full value model
(see the counterexample), the emitted text of the service's fixed-shape CR
documents uniquely determines the `baseDomain` and `image` values, for
values in the unquoted class with no embedded newline. -/
theorem c6_cr_roundtrip (bd1 img1 bd2 img2 : String)
    (hb1 : needsQuote bd1 = false) (hi1 : needsQuote img1 = false)
    (hb2 : needsQuote bd2 = false) (hi2 : needsQuote img2 = false)
    (hn1 : '\n' ∉ bd1.data) (hn2 : '\n' ∉ bd2.data)
    (h : json_to_yaml (crDoc bd1 img1) 0 = json_to_yaml (crDoc bd2 img2) 0) :
    bd1 = bd2 ∧ img1 = img2 := by
  rw [crDoc_emit bd1 img1 hb1 hi1, crDoc_emit bd2 img2 hb2 hi2] at h
  have hd := congrArg String.data h
  simp only [String.data_append] at hd
  have hd2 : bd1.data ++ '\n' :: ("  image: ".data ++ img1.data) =
      bd2.data ++ '\n' :: ("  image: ".data ++ img2.data) := by
    have hsplit : ∀ s t : String,
        ("apiVersion: jumpstarter.dev/v1alpha1\nkind: Jumpstarter\nmetadata:\n  name: jumpstarter\n  namespace: default\nspec:\n  baseDomain: " : String).data ++
          s.data ++ ("\n  image: " : String).data ++ t.data =
        ("apiVersion: jumpstarter.dev/v1alpha1\nkind: Jumpstarter\nmetadata:\n  name: jumpstarter\n  namespace: default\nspec:\n  baseDomain: " : String).data ++
          (s.data ++ '\n' :: ("  image: ".data ++ t.data)) := by
      intro s t
      have hni : ("\n  image: " : String).data = '\n' :: "  image: ".data := rfl
      simp [hni, List.append_assoc]
    rw [hsplit bd1 img1, hsplit bd2 img2] at hd
    exact List.append_cancel_left hd
  have hres := no_nl_append_inj hn1 hn2 hd2
  refine ⟨String.ext hres.1, String.ext ?_⟩
  exact List.append_cancel_left hres.2

/-- Witness for C6's amended claim at concrete plain values. -/
theorem c6_cr_roundtrip_witness :
    ("jumpstarter.local" : String) = "jumpstarter.local" ∧
      ("quay.io/img" : String) = "quay.io/img" :=
  c6_cr_roundtrip "jumpstarter.local" "quay.io/img" "jumpstarter.local" "quay.io/img"
    (by decide) (by decide) (by decide) (by decide) (by decide) (by decide) rfl

/-! ## Discovery-trace shape and concrete environments -/

theorem get_default_route_ip_trace (env : SysEnv) :
    (get_default_route_ip env).2 = [.ipRoute] ∨
      ∃ d, (get_default_route_ip env).2 = [.ipRoute, .ipAddr d] := by
  unfold get_default_route_ip
  cases env.routeOut with
  | none => exact Or.inl rfl
  | some out =>
    dsimp only
    cases splitOnC '\n' (pyStripL out.data) with
    | nil => exact Or.inl rfl
    | cons line0 rest =>
      dsimp only
      by_cases hp : (pyWords line0).length < 5
      · rw [if_pos hp]
        exact Or.inl rfl
      · rw [if_neg hp]
        cases (pyWords line0).findIdx? (fun w => w = "dev".data) with
        | none => exact Or.inl rfl
        | some di =>
          dsimp only
          by_cases hd : (pyWords line0).length ≤ di + 1
          · rw [if_pos hd]
            exact Or.inl rfl
          · rw [if_neg hd]
            cases env.addrOut ⟨(pyWords line0).getD (di + 1) []⟩ with
            | none => exact Or.inr ⟨_, rfl⟩
            | some out2 => exact Or.inr ⟨_, rfl⟩

theorem discovery_cmds_not_adapter (env : SysEnv) :
    ∀ c ∈ (get_default_route_ip env).2, isAdapter c = false := by
  intro c hc
  rcases get_default_route_ip_trace env with h | ⟨d, h⟩ <;> rw [h] at hc <;>
    simp at hc
  · subst hc
    rfl
  · rcases hc with hc | hc <;> subst hc <;> rfl

theorem discovery_cmds_ipRoute (env : SysEnv) :
    Cmd.ipRoute ∈ (get_default_route_ip env).2 := by
  rcases get_default_route_ip_trace env with h | ⟨d, h⟩ <;> rw [h] <;> simp

/-- A fully healthy external world, with the default route on `eth0` at
`192.168.1.10`. -/
def envGood : SysEnv :=
  { gethostname := some "host1"
    routeOut := some "default via 192.168.1.1 dev eth0 proto dhcp src 192.168.1.10 metric 100"
    addrOut := fun d =>
      if d = "eth0" then
        some "2: eth0: <BROADCAST,MULTICAST,UP> mtu 1500\n    inet 192.168.1.10/24 brd 192.168.1.255 scope global dynamic eth0\n       valid_lft 86000sec preferred_lft 86000sec"
      else none
    chpasswdResult := fun _ => (true, "Success")
    hostnameResult := fun _ => (true, "Success")
    kubectlResult := fun _ => (true, "jumpstarter.jumpstarter.dev/jumpstarter created")
    kubeconfigFile := none }

/-- `ip route show default` fails. -/
def envRouteFail : SysEnv := { envGood with routeOut := none }

/-- The address query succeeds but produces no `inet ` line. -/
def envNoInet : SysEnv := { envGood with addrOut := fun _ => some "no addresses" }

/-- The route line is too short to be parsed (fewer than five tokens). -/
def envShortRoute : SysEnv := { envGood with routeOut := some "default via 192.168.1.1" }

/-- The `inet ` line carries an empty address before the mask, which parses
to the empty string — treated as absent by the page's truthiness test. -/
def envEmptyIp : SysEnv :=
  { envGood with addrOut := fun _ => some "    inet /24 brd 192.168.1.255" }

/-- The password step fails while hostname and manifest steps succeed. -/
def envPwFail : SysEnv :=
  { envGood with chpasswdResult := fun _ => (false, "chpasswd: PAM failure") }

/-- A form instance that passes all three validations. -/
def formOk : Form :=
  { baseDomain := "jumpstarter.local", image := "quay.io/img", rootPassword := "supersecret" }

/-! ## Claim C7 -/

/-- C7: with the default-route address `192.168.1.10` discovered, the main
page suggests `jumpstarter.192-168-1-10.nip.io`; whenever discovery yields
nothing the suggestion is the fixed literal `jumpstarter.local`, and each
fallback cause (route command failure, no matching `inet ` output,
unparseable route line) indeed yields nothing; an `inet ` line whose address
parses as empty is likewise treated as absent. -/
theorem c7_suggested_domain :
    (index envGood).1.suggested_hostname = "jumpstarter.192-168-1-10.nip.io" ∧
    (∀ env : SysEnv, (get_default_route_ip env).1 = none →
      (index env).1.suggested_hostname = "jumpstarter.local") ∧
    (get_default_route_ip envRouteFail).1 = none ∧
    (get_default_route_ip envShortRoute).1 = none ∧
    (get_default_route_ip envNoInet).1 = none ∧
    (index envEmptyIp).1.suggested_hostname = "jumpstarter.local" := by
  refine ⟨by decide, ?_, by decide, by decide, by decide, by decide⟩
  intro env h
  simp [index, suggestion, h]

/-- Witness for C7's universally quantified fallback conjunct, at the
environment whose route command fails. -/
theorem c7_suggested_domain_witness :
    (index envRouteFail).1.suggested_hostname = "jumpstarter.local" :=
  c7_suggested_domain.2.1 envRouteFail (by decide)

/-! ## Claim C8 -/

/-- C8: `check_auth` rejects every username other than the literal `root`
without attempting any authentication mechanism, so only `root` can ever
authenticate, and `requires_auth` turns non-root credentials into the 401
response. -/
theorem c8_root_only :
    (∀ (env : AuthEnv) (u p : String), u ≠ "root" → check_auth env u p = (false, [])) ∧
    (∀ (env : AuthEnv) (u p : String), (check_auth env u p).1 = true → u = "root") ∧
    (∀ (env : AuthEnv) (u p : String) (page : Page), u ≠ "root" →
      requires_auth env (some (u, p)) page = .unauthorized) := by
  refine ⟨?_, ?_, ?_⟩
  · intro env u p h
    simp [check_auth, h]
  · intro env u p h
    by_contra hne
    simp [check_auth, hne] at h
  · intro env u p page h
    simp [requires_auth, check_auth, h]

/-- An authentication environment that would accept anything PAM is asked
about; `check_auth` must still reject non-root users without consulting it. -/
def envAuth : AuthEnv :=
  { pamAvailable := true, pam := fun _ _ => true, su := fun _ _ => some 0 }

/-- Witness for C8: the user `admin` is rejected with no mechanism attempted
even though the PAM oracle accepts everything. -/
theorem c8_root_only_witness :
    check_auth envAuth "admin" "hunter22" = (false, []) :=
  c8_root_only.1 envAuth "admin" "hunter22" (by decide)

/-! ## Claim C1 -/

/-- C1 counterexample: a `POST /configure-jumpstarter` request whose
`baseDomain` strips to empty produces the validation error, yet its external
command trace is nonempty — the handler still runs the `ip` address-discovery
commands to compute the suggested domain before validating. -/
theorem c1_counterexample :
    pyStrip ((⟨"   ", "quay.io/img", "supersecret"⟩ : Form).baseDomain) = "" ∧
    (configure_jumpstarter envGood ⟨"   ", "quay.io/img", "supersecret"⟩).1.messages =
      [⟨.error, "Base domain is required"⟩] ∧
    (configure_jumpstarter envGood ⟨"   ", "quay.io/img", "supersecret"⟩).2 ≠ [] := by
  decide

/-- C1 amended: an empty (after stripping) `baseDomain` yields exactly the
required-field error message, and none of the three configuration adapters
(`chpasswd`, `hostnamectl`, `kubectl`) is invoked; the only external commands
run are the address-discovery commands, which are always invoked (the trace
equals the discovery trace and contains `ip route show default`). -/
theorem c1_empty_base_domain (env : SysEnv) (form : Form)
    (h : pyStrip form.baseDomain = "") :
    (configure_jumpstarter env form).1.messages =
      [⟨.error, "Base domain is required"⟩] ∧
    (configure_jumpstarter env form).2 = (get_default_route_ip env).2 ∧
    (∀ c ∈ (configure_jumpstarter env form).2, isAdapter c = false) ∧
    Cmd.ipRoute ∈ (configure_jumpstarter env form).2 := by
  have hpage : configure_jumpstarter env form =
      ({ messages := [⟨.error, "Base domain is required"⟩]
         current_hostname := get_current_hostname env
         suggested_hostname := suggestion (get_default_route_ip env).1 },
       (get_default_route_ip env).2) := by
    unfold configure_jumpstarter
    rw [if_pos h]
  rw [hpage]
  exact ⟨rfl, rfl, discovery_cmds_not_adapter env, discovery_cmds_ipRoute env⟩

/-- Witness for C1's amended claim at a concrete request and environment. -/
theorem c1_empty_base_domain_witness :
    (configure_jumpstarter envRouteFail ⟨"  ", "quay.io/img", "supersecret"⟩).1.messages =
      [⟨.error, "Base domain is required"⟩] ∧
    Cmd.ipRoute ∈ (configure_jumpstarter envRouteFail ⟨"  ", "quay.io/img", "supersecret"⟩).2 := by
  have h := c1_empty_base_domain envRouteFail ⟨"  ", "quay.io/img", "supersecret"⟩ (by decide)
  exact ⟨h.1, h.2.2.2⟩

/-! ## Claim C10 -/

/-- C10: with several invalid fields, exactly one validation error message is
rendered — the first failing check in the fixed order `baseDomain` (empty
after stripping), `image` (empty after stripping), `rootPassword` (missing or
shorter than 8 characters, not stripped) — and no configuration adapter is
invoked. -/
theorem c10_validation_order (env : SysEnv) (form : Form) :
    (pyStrip form.baseDomain = "" →
      (configure_jumpstarter env form).1.messages =
        [⟨.error, "Base domain is required"⟩] ∧
      ∀ c ∈ (configure_jumpstarter env form).2, isAdapter c = false) ∧
    (pyStrip form.baseDomain ≠ "" → pyStrip form.image = "" →
      (configure_jumpstarter env form).1.messages =
        [⟨.error, "Controller image is required"⟩] ∧
      ∀ c ∈ (configure_jumpstarter env form).2, isAdapter c = false) ∧
    (pyStrip form.baseDomain ≠ "" → pyStrip form.image ≠ "" →
      (form.rootPassword = "" ∨ form.rootPassword.length < 8) →
      (configure_jumpstarter env form).1.messages =
        [⟨.error, "Root password is required (minimum 8 characters)"⟩] ∧
      ∀ c ∈ (configure_jumpstarter env form).2, isAdapter c = false) := by
  refine ⟨?_, ?_, ?_⟩
  · intro h
    have hpage : configure_jumpstarter env form =
        ({ messages := [⟨.error, "Base domain is required"⟩]
           current_hostname := get_current_hostname env
           suggested_hostname := suggestion (get_default_route_ip env).1 },
         (get_default_route_ip env).2) := by
      unfold configure_jumpstarter
      rw [if_pos h]
    rw [hpage]
    exact ⟨rfl, discovery_cmds_not_adapter env⟩
  · intro h1 h2
    have hpage : configure_jumpstarter env form =
        ({ messages := [⟨.error, "Controller image is required"⟩]
           current_hostname := get_current_hostname env
           suggested_hostname := suggestion (get_default_route_ip env).1 },
         (get_default_route_ip env).2) := by
      unfold configure_jumpstarter
      rw [if_neg h1, if_pos h2]
    rw [hpage]
    exact ⟨rfl, discovery_cmds_not_adapter env⟩
  · intro h1 h2 h3
    have hpage : configure_jumpstarter env form =
        ({ messages := [⟨.error, "Root password is required (minimum 8 characters)"⟩]
           current_hostname := get_current_hostname env
           suggested_hostname := suggestion (get_default_route_ip env).1 },
         (get_default_route_ip env).2) := by
      unfold configure_jumpstarter
      rw [if_neg h1, if_neg h2, if_pos h3]
    rw [hpage]
    exact ⟨rfl, discovery_cmds_not_adapter env⟩

/-- Witness for C10: a form with all three fields invalid renders only the
base-domain error and invokes no adapter (only the route command runs). -/
theorem c10_validation_order_witness :
    (configure_jumpstarter envRouteFail ⟨" ", "", "short"⟩).1.messages =
      [⟨.error, "Base domain is required"⟩] ∧
    ∀ c ∈ (configure_jumpstarter envRouteFail ⟨" ", "", "short"⟩).2,
      isAdapter c = false :=
  (c10_validation_order envRouteFail ⟨" ", "", "short"⟩).1 (by decide)

/-! ## Claim C3 -/

/-- C3: once validation passes, the rendered messages are exactly the error
messages of the failing steps (password, hostname, manifest apply), in that
order, followed by the single consolidated success message exactly when all
three steps succeeded; and in particular a password failure always renders
the password error and suppresses any success message. -/
theorem c3_partial_failure (env : SysEnv) (form : Form)
    (h1 : pyStrip form.baseDomain ≠ "")
    (h2 : pyStrip form.image ≠ "")
    (h3 : ¬(form.rootPassword = "" ∨ form.rootPassword.length < 8)) :
    ((configure_jumpstarter env form).1.messages =
      (if (env.chpasswdResult form.rootPassword).1 then []
       else [⟨.error, "Failed to set root password: " ++
         (env.chpasswdResult form.rootPassword).2⟩]) ++
      (if (env.hostnameResult (pyStrip form.baseDomain)).1 then []
       else [⟨.error, "Failed to update hostname: " ++
         (env.hostnameResult (pyStrip form.baseDomain)).2⟩]) ++
      (if (env.kubectlResult
            (json_to_yaml (crDoc (pyStrip form.baseDomain) (pyStrip form.image)) 0)).1 then []
       else [⟨.error, "Failed to apply Jumpstarter CR: " ++
         (env.kubectlResult
           (json_to_yaml (crDoc (pyStrip form.baseDomain) (pyStrip form.image)) 0)).2⟩]) ++
      (if (env.chpasswdResult form.rootPassword).1 ∧
          (env.hostnameResult (pyStrip form.baseDomain)).1 ∧
          (env.kubectlResult
            (json_to_yaml (crDoc (pyStrip form.baseDomain) (pyStrip form.image)) 0)).1 then
        [⟨.success, "Configuration applied successfully! Hostname: " ++
          pyStrip form.baseDomain ++ ", Image: " ++ pyStrip form.image⟩]
       else [])) ∧
    ((env.chpasswdResult form.rootPassword).1 = false →
      (⟨.error, "Failed to set root password: " ++
          (env.chpasswdResult form.rootPassword).2⟩ : Msg) ∈
        (configure_jumpstarter env form).1.messages ∧
      ∀ m ∈ (configure_jumpstarter env form).1.messages, m.type = .error) := by
  have hchar : (configure_jumpstarter env form).1.messages =
      (if (env.chpasswdResult form.rootPassword).1 then []
       else [⟨.error, "Failed to set root password: " ++
         (env.chpasswdResult form.rootPassword).2⟩]) ++
      (if (env.hostnameResult (pyStrip form.baseDomain)).1 then []
       else [⟨.error, "Failed to update hostname: " ++
         (env.hostnameResult (pyStrip form.baseDomain)).2⟩]) ++
      (if (env.kubectlResult
            (json_to_yaml (crDoc (pyStrip form.baseDomain) (pyStrip form.image)) 0)).1 then []
       else [⟨.error, "Failed to apply Jumpstarter CR: " ++
         (env.kubectlResult
           (json_to_yaml (crDoc (pyStrip form.baseDomain) (pyStrip form.image)) 0)).2⟩]) ++
      (if (env.chpasswdResult form.rootPassword).1 ∧
          (env.hostnameResult (pyStrip form.baseDomain)).1 ∧
          (env.kubectlResult
            (json_to_yaml (crDoc (pyStrip form.baseDomain) (pyStrip form.image)) 0)).1 then
        [⟨.success, "Configuration applied successfully! Hostname: " ++
          pyStrip form.baseDomain ++ ", Image: " ++ pyStrip form.image⟩]
       else []) := by
    unfold configure_jumpstarter
    rw [if_neg h1, if_neg h2, if_neg h3]
    simp only [set_root_password, set_hostname, apply_jumpstarter_cr]
    cases hp : (env.chpasswdResult form.rootPassword).1 <;>
      cases hh : (env.hostnameResult (pyStrip form.baseDomain)).1 <;>
      cases hk : (env.kubectlResult
        (json_to_yaml (crDoc (pyStrip form.baseDomain) (pyStrip form.image)) 0)).1 <;>
      simp [hp, hh, hk]
  refine ⟨hchar, ?_⟩
  intro hpf
  rw [hchar]
  constructor
  · simp [hpf]
  · cases hh : (env.hostnameResult (pyStrip form.baseDomain)).1 <;>
      cases hk : (env.kubectlResult
        (json_to_yaml (crDoc (pyStrip form.baseDomain) (pyStrip form.image)) 0)).1 <;>
      simp [hpf, hh, hk]

/-- Witness for C3: the password step fails while hostname and manifest
succeed — exactly the password error is rendered, and no success message. -/
theorem c3_partial_failure_witness :
    (configure_jumpstarter envPwFail formOk).1.messages =
      [⟨.error, "Failed to set root password: chpasswd: PAM failure"⟩] := by
  have h := c3_partial_failure envPwFail formOk (by decide) (by decide) (by decide)
  rw [h.1]
  decide

end ConfigSvc
